import Mathlib

/-!
Verification of the share-media FoundryVTT module, as a shallow embedding in
Lean 4 of the code under scrutiny:

* the dispatch pipeline of `ShareablesManager`
  (src/scripts/layers/fullscreen-layer.mjs, second document in the file);
* the replicated history store and the render/sync queue of `MediaSidebar`
  (src/scripts/ui/media-sidebar.mjs);
* the static constants catalog (src/unnamed/part_002) and the utilities
  (src/unnamed/part_000).

External collaborators (the FoundryVTT user list, the canvas, the settings
storage, the selector dialogs) are modelled as explicit inputs; outbound
queries are modelled as values in an effect/message log.
-/

namespace ShareMedia

/-- A FoundryVTT user as the module sees it: its id, whether it is currently
connected (`user.active`) and whether it is a Gamemaster (`user.isGM`). -/
structure UserRec where
  id : String
  active : Bool
  isGM : Bool
deriving DecidableEq, Repr

/-- The ambient game state and external collaborators consulted by the
dispatch pipeline: the user list, the caller's GM status
(`game.users.current.isGM`), the blacklist setting, the canvas presence and
scene id, the available placement areas (`utils.getAvailableAreas`, surfaced
as their uuids), the resolutions of the two selector dialogs
(`userSelector.wait` / `areaSelector.wait`, `none` = cancelled), the outcome
of `canvas.layer.createAreaMediaData` (truthy or not), and the set of layer
modes enabled in `mediaSidebarSettings.layers`. -/
structure Env where
  users : List UserRec
  currentIsGM : Bool
  blacklist : List String
  hasCanvas : Bool
  canvasSceneId : Option String
  availableAreas : List String
  areaSelectorResult : Option String
  userSelectorResult : Option (List String)
  createAreaFlagOk : Bool
  sidebarLayers : List String
deriving DecidableEq, Repr

/-- The `ShareablesOptions` object, also used as the mutable pipeline context
(`#executePipeline` starts from a shallow copy of the request). Fields that a
JS request may leave `undefined` are `Option`-valued (`none` = absent). -/
structure Ctx where
  src : Option String := none
  mode : Option String := none
  optionName : Option String := none
  optionValue : Option String := none
  targetUsers : Option (List String) := none
  targetArea : Option String := none
  darkness : Bool := false
  sceneId : Option String := none
  caption : Option String := none
  immersive : Bool := false
deriving DecidableEq, Repr

/-- LAYERS_MODES.popout. -/
def modePopout : String := "popout"

/-- LAYERS_MODES.fullscreen. -/
def modeFullscreen : String := "fullscreen"

/-- LAYERS_MODES.scene. -/
def modeScene : String := "scene"

/-- The static MEDIA_ACTIONS catalog (src/unnamed/part_002): for each group
key (which every entry's `mode` field repeats) the registered
`(optionName, optionValue)` pairs. -/
def MEDIA_ACTIONS : List (String × List (String × String)) :=
  [(modePopout, [("users", "all"), ("users", "selection")]),
   (modeFullscreen, [("users", "all"), ("users", "selection")]),
   (modeScene, [("display", "fit"), ("display", "fill")])]

/-- Truthiness of an optional JS string: `undefined` and `""` are falsy. -/
def truthy : Option String → Bool
  | none => false
  | some s => !(s == "")

/-- The flattened list of `action.mode` fields of the catalog
(`Object.values(actions).flat().map((action) => action.mode)`); since each
entry's mode field equals its group key, this is the list of group keys. -/
def actionModes : List String := MEDIA_ACTIONS.map (fun a => a.1)

/-- Embeds `ShareablesManager._validateOptions`: a missing/empty `src`, a
`mode` outside the catalog, or an unregistered `(optionName, optionValue)`
pair for the mode each throw an `Error`, modelled as `Except.error`. -/
def validateOptions (o : Ctx) : Except String Unit :=
  if !(truthy o.src) then
    Except.error "You must pass a valid options.src option"
  else if !(truthy o.mode && actionModes.contains (o.mode.getD "")) then
    Except.error "You must pass a valid options.mode option"
  else if (((MEDIA_ACTIONS.find? (fun a => a.1 == o.mode.getD "")).map (fun a => a.2)).getD
      []).any (fun e => (o.optionName == some e.1) && (o.optionValue == some e.2)) then
    Except.ok ()
  else
    Except.error "You must pass a valid optionName and optionValue"

/-- An observable side effect of the pipeline: a user-visible warning
notification, the placement write `canvas.layer.createAreaMediaData`, one
`share-media.renderLayer` query to one user, or the delegation to
`MediaSidebar.storeMedia` (the history write). -/
inductive Effect where
  | warn (msg : String)
  | createAreaFlag (targetArea : Option String) (data : Ctx)
  | renderLayer (userId : String) (data : Ctx)
  | storeMediaCall (src : Option String) (targetUsers : Option (List String)) (settings : Ctx)
deriving DecidableEq, Repr

/-- Ids of the currently active users, in user-list order
(`game.users.filter((u) => u.active).map((u) => u.id)`). -/
def activeUserIds (env : Env) : List String :=
  (env.users.filter (fun u => u.active)).map (fun u => u.id)

/-- The `condition` predicates of `ShareablesManager.PIPELINE_STEPS`, keyed by
step name and evaluated (as in `#createExecutionPipeline`) on the initial
request. -/
def stepCondition (name : String) (o : Ctx) : Bool :=
  if name = "is-gm" then true
  else if name = "all-users" then
    ((o.optionName == some "users") && (o.optionValue == some "all")) || (o.mode == some modeScene)
  else if name = "user-selection" then
    (o.optionName == some "users") && (o.optionValue == some "selection")
  else if name = "blacklist-filter" then !(o.mode == some modeScene)
  else if name = "area-selection" then o.mode == some modeScene
  else if name = "has-darkness" then o.darkness && !(o.mode == some modeScene)
  else if name = "create-area-flag" then o.mode == some modeScene
  else if name = "create-layer" then !(o.mode == some modeScene)
  else if name = "store-media" then true
  else false

/-- The registry order of `ShareablesManager.PIPELINE_STEPS`. -/
def PIPELINE_STEPS : List String :=
  ["is-gm", "all-users", "user-selection", "blacklist-filter", "area-selection",
   "has-darkness", "create-area-flag", "create-layer", "store-media"]

/-- Embeds `ShareablesManager.#createExecutionPipeline`: the registry filtered
by the conditions evaluated on the initial options. -/
def createExecutionPipeline (o : Ctx) : List String :=
  PIPELINE_STEPS.filter (fun n => stepCondition n o)

/-- The `PIPELINE_HANDLERS` table: one step applied to the evolving context.
Returns the continuation context (`none` = the handler returned `null`,
aborting the pipeline) together with the effects the handler performed. -/
def runStep (env : Env) (name : String) (ctx : Ctx) : Option Ctx × List Effect :=
  if name = "is-gm" then
    if env.currentIsGM then (some ctx, [])
    else (none, [Effect.warn "Only Gamemasters are able to share media!"])
  else if name = "all-users" then
    (some { ctx with targetUsers := some (activeUserIds env) }, [])
  else if name = "user-selection" then
    match env.userSelectorResult with
    | none => (none, [])
    | some us => (some { ctx with targetUsers := some us }, [])
  else if name = "blacklist-filter" then
    match ctx.targetUsers with
    | none => (some ctx, [])
    | some us =>
      if us.isEmpty then (some ctx, [])
      else
        let allowed := us.filter (fun u => !(env.blacklist.contains u))
        if allowed.isEmpty then (none, [])
        else (some { ctx with targetUsers := some allowed }, [])
  else if name = "area-selection" then
    if !env.hasCanvas then
      (none, [Effect.warn "An active scene is needed to share with scene mode!"])
    else if env.availableAreas.length = 1 then
      (some { ctx with targetArea := env.availableAreas.head? }, [])
    else
      match env.areaSelectorResult with
      | none => (none, [])
      | some a => (some { ctx with targetArea := some a }, [])
  else if name = "has-darkness" then
    if !env.hasCanvas then (none, [])
    else (some { ctx with sceneId := env.canvasSceneId }, [])
  else if name = "create-area-flag" then
    let data := { ctx with mode := none, targetArea := none }
    if env.createAreaFlagOk then (some ctx, [Effect.createAreaFlag ctx.targetArea data])
    else (none, [Effect.createAreaFlag ctx.targetArea data])
  else if name = "create-layer" then
    match ctx.targetUsers with
    | none => (none, [])
    | some us =>
      if us.isEmpty then (none, [])
      else (some ctx, us.map (fun u => Effect.renderLayer u { ctx with targetUsers := none }))
  else if name = "store-media" then
    if env.sidebarLayers.contains (ctx.mode.getD "") then
      (some ctx,
       [Effect.storeMediaCall ctx.src ctx.targetUsers { ctx with src := none, targetUsers := none }])
    else (some ctx, [])
  else (none, [])

/-- Embeds `ShareablesManager.#executePipeline`: run the steps sequentially on
the evolving context; a `null` return interrupts the chain. The effect log
accumulates in execution order. -/
def executePipeline (env : Env) : List String → Ctx → Option Ctx × List Effect
  | [], ctx => (some ctx, [])
  | n :: rest, ctx =>
    match runStep env n ctx with
    | (none, fx) => (none, fx)
    | (some ctx', fx) =>
      let r := executePipeline env rest ctx'
      (r.1, fx ++ r.2)

/-- Embeds `ShareablesManager.dispatch` up to the final coercion: validation
(whose thrown `Error` propagates out of `dispatch`, there is no catch), then
the filtered pipeline executed on a copy of the options. -/
def dispatchFull (env : Env) (o : Ctx) : Except String (Option Ctx) × List Effect :=
  match validateOptions o with
  | Except.error e => (Except.error e, [])
  | Except.ok _ =>
    let r := executePipeline env (createExecutionPipeline o) o
    (Except.ok r.1, r.2)

/-- Embeds `ShareablesManager.dispatch`: the returned promise carries
`!!result` on normal completion and rejects when validation throws. -/
def dispatch (env : Env) (o : Ctx) : Except String Bool × List Effect :=
  let r := dispatchFull env o
  (r.1.map (fun c => c.isSome), r.2)

/-! ## The replicated history store (`MediaSidebar`, history side) -/

/-- The open bag of mode-specific media settings stored alongside a history
record; the store treats it opaquely (replaced wholesale on reshare), so it
is embedded as a key-value bag. -/
abbrev MediaSettings := List (String × String)

/-- A `HistoryMedia` record of the store: id (the fingerprint of the source),
last-touched timestamp, source URL, recipient user ids, and settings. -/
structure Media where
  id : String
  timestamp : Nat
  src : String
  targetUsers : List String
  settings : MediaSettings
deriving DecidableEq, Repr

/-- Embeds `utils.escapeSource` (src/unnamed/part_000): the fingerprint of a
source URL. The WHATWG URL resolution and `encodeURIComponent` of the
original act as the identity on the plain relative sources exercised here;
the step the record-keying relies on — a deterministic key with every dot
replaced by a dash (`.replace(/\./g, "-")`) — is embedded per character. -/
def escapeSource (url : String) : String :=
  String.mk (url.data.map (fun c => if c = '.' then '-' else c))

/-- Insertion-ordered deduplication, as `[...new Set([...xs])]`: keeps the
first occurrence of each element, in order. -/
def dedupFirst (l : List String) : List String :=
  go l []
where
  /-- Walk the list, skipping elements already seen. -/
  go : List String → List String → List String
  | [], _ => []
  | x :: xs, seen => if seen.contains x then go xs seen else x :: go xs (x :: seen)

/-- One outbound point-to-point query pushed by the history store:
`share-media.addMedia`, `share-media.removeMedia` (with its animate hint) or
`share-media.flushMedia`, addressed to one user. -/
inductive Msg where
  | addMedia (userId : String) (media : Media)
  | removeMedia (userId : String) (id : String) (animate : Bool)
  | flushMedia (userId : String)
deriving DecidableEq, Repr

/-- GM status of a user id (`game.users.get(userId).isGM`). The store only
ever looks up ids of existing users; an absent id is treated as non-GM. -/
def userIsGM (env : Env) (uid : String) : Bool :=
  ((env.users.find? (fun u => u.id = uid)).map (fun u => u.isGM)).getD false

/-- The notification audience both write paths compute: every active user who
is a GM or belongs to the given recipient list, in user-list order. -/
def notifyTargets (env : Env) (recipients : List String) : List UserRec :=
  env.users.filter (fun u => u.active && (u.isGM || recipients.contains u.id))

/-- Embeds `MediaSidebar.storeMedia`. Inputs: the local collection it reads
(`this.mediaCollection`), the request, the current time, and whether the
awaited `#setRemoteStorage` write resolves (`persistOk = false` = the
settings write rejects). Output: `Except.error ()` when the rejected write
propagates; otherwise the new persisted collection (`none` when the non-GM
guard made the call a no-op), paired with the `addMedia` queries pushed. -/
def storeMedia (env : Env) (persistOk : Bool) (hist : List Media) (src : String)
    (targetUsers : List String) (settings : MediaSettings) (now : Nat) :
    Except Unit (Option (List Media)) × List Msg :=
  if !env.currentIsGM then (Except.ok none, [])
  else
    let key := escapeSource src
    let players := targetUsers.filter (fun uid => !userIsGM env uid)
    let media : Media :=
      match hist.find? (fun m => m.id = key) with
      | some old =>
        { old with
          timestamp := now
          targetUsers := dedupFirst (old.targetUsers ++ players)
          settings := settings }
      | none =>
        { id := key, timestamp := now, src := src, targetUsers := players, settings := settings }
    let coll := (hist.filter (fun m => !(m.id = key))) ++ [media]
    if !persistOk then (Except.error (), [])
    else
      (Except.ok (some coll),
       (notifyTargets env media.targetUsers).map (fun u => Msg.addMedia u.id media))

/-- Embeds `MediaSidebar.deleteMedia`: the recipient list is copied before the
record is deleted from the collection; the persisted write precedes the
`removeMedia` pushes (which carry `animate: true`). -/
def deleteMedia (env : Env) (persistOk : Bool) (hist : List Media) (id : String) :
    Except Unit (Option (List Media)) × List Msg :=
  if !env.currentIsGM then (Except.ok none, [])
  else
    match hist.find? (fun m => m.id = id) with
    | none => (Except.ok none, [])
    | some old =>
      let coll := hist.filter (fun m => !(m.id = id))
      if !persistOk then (Except.error (), [])
      else
        (Except.ok (some coll),
         (notifyTargets env old.targetUsers).map (fun u => Msg.removeMedia u.id id true))

/-- Embeds `MediaSidebar.deleteHistory`: replace the history with an empty
collection, then push `flushMedia` to every active user. -/
def deleteHistory (env : Env) (persistOk : Bool) :
    Except Unit (Option (List Media)) × List Msg :=
  if !env.currentIsGM then (Except.ok none, [])
  else if !persistOk then (Except.error (), [])
  else
    (Except.ok (some []),
     ((env.users.filter (fun u => u.active)).map (fun u => Msg.flushMedia u.id)))

/-! ## The render/sync queue (`MediaSidebar`, peer side) -/

/-- The per-peer state of the main (non-popout) sidebar: the local mirror
collection, the presentation surface (the media-log list items, top first,
identified by media id), the backfill cursor `#lastId`, the backfill guard
`#renderingBatch`, the backfill operations admitted to the rendering queue,
and the configuration read by the guards (`rendered`,
`#sidebarSettings.enabled` / `.gmOnly`, the current user). -/
structure RenderState where
  collection : List Media
  surface : List String
  lastId : Option String
  renderingBatch : Bool
  pendingBatchSizes : List Nat
  rendered : Bool
  enabled : Bool
  gmOnly : Bool
  currentIsGM : Bool
  currentUserId : String
deriving DecidableEq, Repr

/-- Remove the first list item with the given media id, as
`querySelector` + `li.remove()` does; also returns the id of the removed
item's next sibling (`li.nextElementSibling`), used to advance the cursor.
Returns `none` when no such item exists. -/
def surfaceRemoveFirst : List String → String → Option (List String × Option String)
  | [], _ => none
  | x :: xs, i =>
    if x = i then some (xs, xs.head?)
    else (surfaceRemoveFirst xs i).map (fun p => (x :: p.1, p.2))

/-- Embeds `MediaSidebar.#doRemoveMedia` (the animate flag only affects the
removal transition, not the resulting state): drop the element from the
surface and, when it carried the cursor, move the cursor to its next
sibling (or clear it). -/
def doRemoveMedia (s : RenderState) (id : String) : RenderState :=
  if !s.rendered then s
  else
    match surfaceRemoveFirst s.surface id with
    | none => s
    | some (surf, nxt) =>
      { s with surface := surf, lastId := if s.lastId = some id then nxt else s.lastId }

/-- Embeds `MediaSidebar.#doAddMedia`: append the rendered element to the
bottom of the log; when nothing was displayed yet, this media becomes the
cursor. -/
def doAddMedia (s : RenderState) (m : Media) : RenderState :=
  if !s.rendered then s
  else
    { s with
      lastId := if s.lastId = none then some m.id else s.lastId
      surface := s.surface ++ [m.id] }

/-- The mirror-collection sync at the head of `MediaSidebar._addMedia`: if the
collection already has the id, delete it, then `set` the entry (a fresh key
appends at the end, an existing key would stay in place). -/
def collectionSyncAdd (coll : List Media) (m : Media) : List Media :=
  let c := if coll.any (fun x => x.id = m.id) then coll.filter (fun x => !(x.id = m.id)) else coll
  if c.any (fun x => x.id = m.id) then c.map (fun x => if x.id = m.id then m else x)
  else c ++ [m]

/-- Embeds `MediaSidebar._addMedia` for the main sidebar: sync the mirror,
then — unless the sidebar settings bar this client — run the enqueued pair
(remove any existing element first, then add). The admission semaphore runs
queued operations in order, so for the sequential calls studied here the
pair is applied immediately. -/
def addMedia (s : RenderState) (m : Media) : RenderState :=
  let s1 := { s with collection := collectionSyncAdd s.collection m }
  if !s1.enabled then s1
  else if s1.gmOnly && !s1.currentIsGM then s1
  else doAddMedia (doRemoveMedia s1 m.id) m

/-- Embeds `MediaSidebar._renderBatch`, the admission side of a backfill
request: a no-op while `#renderingBatch` is set or the settings bar this
client; otherwise it sets the guard and enqueues one `#doRenderBatch`. -/
def renderBatch (s : RenderState) (size : Nat) : RenderState :=
  if s.renderingBatch then s
  else if !s.enabled then s
  else if s.gmOnly && !s.currentIsGM then s
  else { s with renderingBatch := true, pendingBatchSizes := s.pendingBatchSizes ++ [size] }

/-- The media list `#doRenderBatch` paginates over: GMs see the whole mirror,
players only the records whose `targetUsers` contain them. -/
def batchSourceList (s : RenderState) : List Media :=
  if s.currentIsGM then s.collection
  else s.collection.filter (fun m => m.targetUsers.contains s.currentUserId)

/-- Embeds `MediaSidebar.#doRenderBatch`: find the cursor in the (possibly
filtered) media list, slice the previous `size` records, prepend them to the
surface, move the cursor to the batch's first record, and clear the guard. -/
def doRenderBatch (s : RenderState) (size : Nat) : RenderState :=
  if !s.rendered then { s with renderingBatch := false }
  else
    let mediaList := batchSourceList s
    let lastIdx :=
      match mediaList.findIdx? (fun m => some m.id = s.lastId) with
      | some i => i
      | none => mediaList.length
    if lastIdx = 0 then { s with renderingBatch := false }
    else
      let batch := (mediaList.take lastIdx).drop (lastIdx - size)
      { s with
        surface := batch.map (fun m => m.id) ++ s.surface
        lastId :=
          match batch.head? with
          | some m => some m.id
          | none => s.lastId
        renderingBatch := false }

/-! ## Derived predicates and concrete fixtures -/

/-- A request whose source is truthy and whose `(mode, optionName,
optionValue)` triple is registered in the MEDIA_ACTIONS catalog — exactly the
requests `_validateOptions` accepts. -/
def requestRegistered (o : Ctx) : Bool :=
  truthy o.src && (truthy o.mode && actionModes.contains (o.mode.getD "")) &&
    (((MEDIA_ACTIONS.find? (fun a => a.1 == o.mode.getD "")).map (fun a => a.2)).getD []).any
      (fun e => (o.optionName == some e.1) && (o.optionValue == some e.2))

/-- Recognizer for the placement-write effect. -/
def isAreaFlagEffect : Effect → Bool
  | Effect.createAreaFlag _ _ => true
  | _ => false

/-- Recognizer for an outbound renderLayer peer query. -/
def isRenderLayerEffect : Effect → Bool
  | Effect.renderLayer _ _ => true
  | _ => false

/-- Recognizer for the history-write delegation. -/
def isStoreEffect : Effect → Bool
  | Effect.storeMediaCall _ _ _ => true
  | _ => false

/-- A pipeline effect trace in which every placement write precedes every
outbound peer query, every peer query precedes the history write, and at
most one history write occurs (necessarily last). -/
def TraceOrdered (fx : List Effect) : Prop :=
  ∃ flags layers stores,
    fx = flags ++ layers ++ stores ∧
    flags.all isAreaFlagEffect = true ∧
    layers.all isRenderLayerEffect = true ∧
    stores.all isStoreEffect = true ∧
    stores.length ≤ 1

/-- A connected Gamemaster, used as a concrete fixture. -/
def gmUser : UserRec := { id := "G", active := true, isGM := true }

/-- A connected player, used as a concrete fixture. -/
def playerA : UserRec := { id := "A", active := true, isGM := false }

/-- Another connected player, used as a concrete fixture. -/
def playerB : UserRec := { id := "B", active := true, isGM := false }

/-- A concrete environment: a GM caller, two connected players, an empty
blacklist, an active canvas with two shareable areas, both selectors
resolving, the placement write succeeding, and every layer enabled in the
sidebar settings. -/
def baseEnv : Env :=
  { users := [gmUser, playerA, playerB]
    currentIsGM := true
    blacklist := []
    hasCanvas := true
    canvasSceneId := some "S1"
    availableAreas := ["R1", "R2"]
    areaSelectorResult := some "R1"
    userSelectorResult := some ["A"]
    createAreaFlagOk := true
    sidebarLayers := [modePopout, modeFullscreen, modeScene] }

/-- A concrete valid popout-to-all request. -/
def popoutAllRequest : Ctx :=
  { src := some "a.png", mode := some modePopout,
    optionName := some "users", optionValue := some "all" }

/-- A concrete valid scene request. -/
def sceneFitRequest : Ctx :=
  { src := some "a.png", mode := some modeScene,
    optionName := some "display", optionValue := some "fit" }

/-- A concrete request whose `(mode, optionName, optionValue)` triple is not
registered: popout mode with the display option pair. -/
def invalidRequest : Ctx :=
  { src := some "a.png", mode := some modePopout,
    optionName := some "display", optionValue := some "fit" }

/-- A concrete history record fixture. -/
def mediaFixture : Media :=
  { id := "a-png", timestamp := 5, src := "a.png", targetUsers := ["A"], settings := [] }

/-- A concrete render state fixture: a rendered, enabled, non-gmOnly main
sidebar of player A, mirroring two records of which one is addressed to A. -/
def baseRender : RenderState :=
  { collection :=
      [{ id := "a-png", timestamp := 1, src := "a.png", targetUsers := ["A"], settings := [] },
       { id := "b-png", timestamp := 2, src := "b.png", targetUsers := ["B"], settings := [] }]
    surface := []
    lastId := none
    renderingBatch := false
    pendingBatchSizes := []
    rendered := true
    enabled := true
    gmOnly := false
    currentIsGM := false
    currentUserId := "A" }

end ShareMedia

open ShareMedia

/-! ## Helper lemmas -/

/-- A request the validator rejects produces an error, by the same three
checks in order. -/
theorem validateOptions_error_of_not_registered (o : Ctx) (h : requestRegistered o = false) :
    ∃ e, validateOptions o = Except.error e := by
  unfold requestRegistered at h
  unfold validateOptions
  split
  · exact ⟨_, rfl⟩
  · split
    · exact ⟨_, rfl⟩
    · split
      · simp_all
      · exact ⟨_, rfl⟩

/-- Elements of a collection fresh for a key are untouched by the
delete-by-key filter. -/
theorem filter_ne_key_of_fresh (hist : List Media) (key : String)
    (h : ∀ m ∈ hist, ¬ m.id = key) : hist.filter (fun m => !(m.id = key)) = hist := by
  rw [List.filter_eq_self]
  intro m hm
  simpa using h m hm

/-- A collection fresh for a key has no entry with that key. -/
theorem find?_eq_none_of_fresh (hist : List Media) (key : String)
    (h : ∀ m ∈ hist, ¬ m.id = key) : hist.find? (fun m => m.id = key) = none := by
  rw [List.find?_eq_none]
  intro m hm
  simpa using h m hm

/-! ## C1 -/

/-- C1 (amended): a dispatch whose request has a missing/empty source or an
unregistered `(mode, optionName, optionValue)` triple is rejected by
validation with no side effect (no peer message, no history write), and the
validation error propagates out of `dispatch` as a rejected promise rather
than being recovered at the pipeline boundary. -/
theorem c1_invalid_request_rejected_before_side_effects :
    ∀ (env : Env) (o : Ctx), requestRegistered o = false →
    ∃ e, dispatch env o = (Except.error e, []) := by
  intro env o h
  obtain ⟨e, he⟩ := validateOptions_error_of_not_registered o h
  exact ⟨e, by simp [dispatch, dispatchFull, he, Except.map]⟩

/-- C1 witness: the concrete unregistered triple (popout, display, fit) is
rejected with no effects. -/
theorem c1_invalid_request_rejected_before_side_effects_witness :
    requestRegistered invalidRequest = false ∧
    ∃ e, dispatch baseEnv invalidRequest = (Except.error e, []) :=
  ⟨by decide,
   c1_invalid_request_rejected_before_side_effects baseEnv invalidRequest (by decide)⟩

/-- C1 counterexample: at a concrete unregistered triple, `dispatch` resolves
to the propagated validation error, not to a recovered (non-exceptional)
result — the claim's "recovered at the pipeline boundary rather than
propagating to the caller" is false on the code. -/
theorem c1_validation_error_propagates_counterexample :
    (dispatch baseEnv invalidRequest).1 =
      Except.error "You must pass a valid optionName and optionValue" := by
  rfl

/-! ## C4 -/

/-- C4: for each history-store operation (record/storeMedia,
delete/deleteMedia, clear/deleteHistory), a failing persistence write
propagates as a rejected operation with no push message sent, and push
messages are only ever produced when the persisted write completed. -/
theorem c4_persistence_failure_propagates_and_suppresses_push :
    ∀ (env : Env) (hist : List Media) (src : String) (tus : List String)
      (st : MediaSettings) (now : Nat) (id : String) (old : Media),
    env.currentIsGM = true →
    (storeMedia env false hist src tus st now = (Except.error (), []) ∧
     (hist.find? (fun m => m.id = id) = some old →
        deleteMedia env false hist id = (Except.error (), [])) ∧
     deleteHistory env false = (Except.error (), []) ∧
     (∀ pok, (storeMedia env pok hist src tus st now).2 ≠ [] → pok = true) ∧
     (∀ pok, (deleteMedia env pok hist id).2 ≠ [] → pok = true) ∧
     (∀ pok, (deleteHistory env pok).2 ≠ [] → pok = true)) := by
  intro env hist src tus st now id old hgm
  refine ⟨?_, ?_, ?_, ?_, ?_, ?_⟩
  · simp [storeMedia, hgm]
  · intro hfind
    simp [deleteMedia, hgm, hfind]
  · simp [deleteHistory, hgm]
  · intro pok h
    cases pok
    · exfalso; exact h (by simp [storeMedia, hgm])
    · rfl
  · intro pok h
    cases pok
    · exfalso
      apply h
      rcases hf : hist.find? (fun m => m.id = id) with _ | old'
      · simp [deleteMedia, hgm, hf]
      · simp [deleteMedia, hgm, hf]
    · rfl
  · intro pok h
    cases pok
    · exfalso; exact h (by simp [deleteHistory, hgm])
    · rfl

/-- C4 witness: concrete instantiation with a GM caller and one stored
record. -/
theorem c4_persistence_failure_propagates_and_suppresses_push_witness :
    baseEnv.currentIsGM = true ∧
    storeMedia baseEnv false [mediaFixture] "a.png" ["A"] [] 9 = (Except.error (), []) :=
  ⟨by decide,
   (c4_persistence_failure_propagates_and_suppresses_push baseEnv [mediaFixture] "a.png" ["A"]
      [] 9 "a-png" mediaFixture (by decide)).1⟩

/-! ## C5 -/

/-- C5: deleting a stored record pushes a `removeMedia` query carrying the
animate hint to exactly the active GMs plus the users of the record's
recipient set captured before deletion, and the persisted collection no
longer contains the record. -/
theorem c5_delete_pushes_to_prior_recipients :
    ∀ (env : Env) (hist : List Media) (id : String) (old : Media),
    env.currentIsGM = true →
    hist.find? (fun m => m.id = id) = some old →
    deleteMedia env true hist id =
      (Except.ok (some (hist.filter (fun m => !(m.id = id)))),
       (env.users.filter (fun u => u.active && (u.isGM || old.targetUsers.contains u.id))).map
         (fun u => Msg.removeMedia u.id id true)) ∧
    (hist.filter (fun m => !(m.id = id))).find? (fun m => m.id = id) = none := by
  intro env hist id old hgm hfind
  constructor
  · simp [deleteMedia, hgm, hfind, notifyTargets]
  · rw [List.find?_eq_none]
    intro m hm
    simp only [List.mem_filter, Bool.not_eq_true] at hm
    simpa using hm.2

/-- C5 witness: deleting the concrete record notifies the active GM and the
prior recipient A, while the persisted history is left empty. -/
theorem c5_delete_pushes_to_prior_recipients_witness :
    baseEnv.currentIsGM = true ∧
    [mediaFixture].find? (fun m => m.id = "a-png") = some mediaFixture ∧
    deleteMedia baseEnv true [mediaFixture] "a-png" =
      (Except.ok (some []),
       [Msg.removeMedia "G" "a-png" true, Msg.removeMedia "A" "a-png" true]) := by
  refine ⟨by decide, by decide, ?_⟩
  have h := (c5_delete_pushes_to_prior_recipients baseEnv [mediaFixture] "a-png" mediaFixture
    (by decide) (by decide)).1
  rw [h]
  rfl

/-! ## C2 -/

/-- C2: recording the same source twice with recipient lists A then B yields
exactly one record, keyed by the fingerprint of the source, whose recipient
set is the union of the non-GM members of A and B, whose settings are those
of the later share, and whose timestamp is the later share's time — the
collection grows by one record, not two. Between the two shares the GM
client's own mirror is synced by its own addMedia query
(`collectionSyncAdd`), as the notification loop does on every active GM. -/
theorem c2_reshare_merges_into_single_record :
    ∀ (env : Env) (hist : List Media) (src : String) (A B : List String)
      (st1 st2 : MediaSettings) (t1 t2 : Nat) (key : String) (p1 p2 : List String)
      (m1 m2 : Media),
    env.currentIsGM = true →
    (∀ m ∈ hist, ¬ m.id = escapeSource src) →
    key = escapeSource src →
    p1 = A.filter (fun uid => !userIsGM env uid) →
    p2 = B.filter (fun uid => !userIsGM env uid) →
    m1 = { id := key, timestamp := t1, src := src, targetUsers := p1, settings := st1 } →
    m2 = { id := key, timestamp := t2, src := src, targetUsers := dedupFirst (p1 ++ p2),
           settings := st2 } →
    (storeMedia env true hist src A st1 t1 =
       (Except.ok (some (hist ++ [m1])),
        (notifyTargets env p1).map (fun u => Msg.addMedia u.id m1)) ∧
     storeMedia env true (collectionSyncAdd hist m1) src B st2 t2 =
       (Except.ok (some (hist ++ [m2])),
        (notifyTargets env (dedupFirst (p1 ++ p2))).map (fun u => Msg.addMedia u.id m2)) ∧
     ((hist ++ [m2]).filter (fun m => m.id = key)).length = 1 ∧
     (hist ++ [m2]).length = hist.length + 1) := by
  intro env hist src A B st1 st2 t1 t2 key p1 p2 m1 m2 hgm hfresh hkey hp1 hp2 hm1 hm2
  subst hkey
  have hfind := find?_eq_none_of_fresh hist (escapeSource src) hfresh
  have hfilter := filter_ne_key_of_fresh hist (escapeSource src) hfresh
  have hid1 : m1.id = escapeSource src := by rw [hm1]
  have hany1 : hist.any (fun x => x.id = m1.id) = false := by
    rw [List.any_eq_false]
    intro m hm
    rw [hid1]
    simpa using hfresh m hm
  have hsync : collectionSyncAdd hist m1 = hist ++ [m1] := by
    simp [collectionSyncAdd, hany1]
  have hfind2 : (hist ++ [m1]).find? (fun m => m.id = escapeSource src) = some m1 := by
    rw [List.find?_append, hfind]
    simp [hid1]
  have hfilter2 : (hist ++ [m1]).filter (fun m => !(m.id = escapeSource src)) = hist := by
    rw [List.filter_append, hfilter]
    simp [hid1]
  have hmerge : ({ m1 with
      timestamp := t2
      targetUsers := dedupFirst (m1.targetUsers ++ B.filter (fun uid => !userIsGM env uid))
      settings := st2 } : Media) = m2 := by
    subst hm1 hm2 hp1 hp2
    rfl
  refine ⟨?_, ?_, ?_, ?_⟩
  · subst hm1 hp1
    simp [storeMedia, hgm, hfind, hfilter]
  · rw [hsync]
    simp only [storeMedia, hgm, Bool.not_true, Bool.false_eq_true, if_false, hfind2,
      Bool.not_false, if_true, hfilter2, hmerge]
    subst hm2
    simp
  · rw [List.filter_append]
    have hnil : hist.filter (fun m => m.id = escapeSource src) = [] := by
      rw [List.filter_eq_nil_iff]
      intro m hm
      simpa using hfresh m hm
    have hid2 : m2.id = escapeSource src := by rw [hm2]
    simp [hnil, hid2]
  · simp

/-- C2 witness: sharing a.png to A then to B, with the GM mirror synced in
between, leaves a single record carrying both recipients, the later settings
and the later timestamp. -/
theorem c2_reshare_merges_into_single_record_witness :
    baseEnv.currentIsGM = true ∧
    storeMedia baseEnv true
        (collectionSyncAdd []
          { id := "a-png", timestamp := 1, src := "a.png", targetUsers := ["A"],
            settings := [("darkness", "true")] })
        "a.png" ["B"] [("darkness", "false")] 2 =
      (Except.ok (some
         [{ id := "a-png", timestamp := 2, src := "a.png", targetUsers := ["A", "B"],
            settings := [("darkness", "false")] }]),
       [Msg.addMedia "G"
          { id := "a-png", timestamp := 2, src := "a.png", targetUsers := ["A", "B"],
            settings := [("darkness", "false")] },
        Msg.addMedia "A"
          { id := "a-png", timestamp := 2, src := "a.png", targetUsers := ["A", "B"],
            settings := [("darkness", "false")] },
        Msg.addMedia "B"
          { id := "a-png", timestamp := 2, src := "a.png", targetUsers := ["A", "B"],
            settings := [("darkness", "false")] }]) := by
  refine ⟨rfl, ?_⟩
  have h := (c2_reshare_merges_into_single_record baseEnv [] "a.png" ["A"] ["B"]
    [("darkness", "true")] [("darkness", "false")] 1 2 "a-png" ["A"] ["B"]
    { id := "a-png", timestamp := 1, src := "a.png", targetUsers := ["A"],
      settings := [("darkness", "true")] }
    { id := "a-png", timestamp := 2, src := "a.png", targetUsers := ["A", "B"],
      settings := [("darkness", "false")] }
    rfl (by simp) rfl (by rfl) (by rfl) (by rfl) (by rfl)).2.1
  exact h.trans (by rfl)

/-! ## Render queue helper lemmas -/

/-- When `surfaceRemoveFirst` finds nothing, the id does not occur in the
surface. -/
theorem surfaceRemoveFirst_none_count (l : List String) (id : String)
    (h : surfaceRemoveFirst l id = none) : l.count id = 0 := by
  induction l with
  | nil => rfl
  | cons x xs ih =>
    unfold surfaceRemoveFirst at h
    by_cases hx : x = id
    · simp [hx] at h
    · simp only [hx, if_false] at h
      rcases hs : surfaceRemoveFirst xs id with _ | p
      · simp [List.count_cons, ih hs, hx, Ne.symm hx]
      · rw [hs] at h
        simp at h

/-- Removing the first occurrence of an id decrements its occurrence count by
one. -/
theorem surfaceRemoveFirst_some_count (l : List String) (id : String)
    (l' : List String) (nxt : Option String)
    (h : surfaceRemoveFirst l id = some (l', nxt)) : l.count id = l'.count id + 1 := by
  induction l generalizing l' nxt with
  | nil => simp [surfaceRemoveFirst] at h
  | cons x xs ih =>
    unfold surfaceRemoveFirst at h
    by_cases hx : x = id
    · simp only [hx, if_true, Option.some.injEq, Prod.mk.injEq] at h
      obtain ⟨h1, _⟩ := h
      subst hx h1
      simp [List.count_cons]
    · simp only [hx, if_false] at h
      rcases hs : surfaceRemoveFirst xs id with _ | p
      · rw [hs] at h; simp at h
      · rw [hs] at h
        simp only [Option.map_some', Option.some.injEq, Prod.mk.injEq] at h
        obtain ⟨h1, _⟩ := h
        subst h1
        simp [List.count_cons, hx, Ne.symm hx, ih p.1 p.2 hs]

/-- `doRemoveMedia` only touches the surface and the cursor. -/
theorem doRemoveMedia_eta (s : RenderState) (id : String) :
    ∃ surf last, doRemoveMedia s id = { s with surface := surf, lastId := last } := by
  obtain ⟨c, sf, li, rb, pb, rd, en, go, ig, cu⟩ := s
  cases rd
  · exact ⟨sf, li, by simp [doRemoveMedia]⟩
  · rcases hsr : surfaceRemoveFirst sf id with _ | ⟨surf2, nxt2⟩
    · exact ⟨sf, li, by simp [doRemoveMedia, hsr]⟩
    · exact ⟨surf2, (if li = some id then nxt2 else li), by simp [doRemoveMedia, hsr]⟩

/-- `doAddMedia` only touches the surface and the cursor. -/
theorem doAddMedia_eta (s : RenderState) (m : Media) :
    ∃ surf last, doAddMedia s m = { s with surface := surf, lastId := last } := by
  obtain ⟨c, sf, li, rb, pb, rd, en, go, ig, cu⟩ := s
  cases rd
  · exact ⟨sf, li, by simp [doAddMedia]⟩
  · exact ⟨sf ++ [m.id], (if li = none then some m.id else li), by simp [doAddMedia]⟩

/-- `_addMedia` syncs the mirror as `collectionSyncAdd` and only otherwise
touches the surface and the cursor. -/
theorem addMedia_eta (s : RenderState) (m : Media) :
    ∃ surf last, addMedia s m =
      { s with collection := collectionSyncAdd s.collection m, surface := surf,
               lastId := last } := by
  obtain ⟨c, sf, li, rb, pb, rd, en, go, ig, cu⟩ := s
  cases en
  · exact ⟨sf, li, by simp [addMedia]⟩
  · cases hgo : go && !ig
    · obtain ⟨sf1, l1, he1⟩ := doRemoveMedia_eta
        { collection := collectionSyncAdd c m, surface := sf, lastId := li,
          renderingBatch := rb, pendingBatchSizes := pb, rendered := rd, enabled := true,
          gmOnly := go, currentIsGM := ig, currentUserId := cu } m.id
      obtain ⟨sf2, l2, he2⟩ := doAddMedia_eta
        { collection := collectionSyncAdd c m, surface := sf1, lastId := l1,
          renderingBatch := rb, pendingBatchSizes := pb, rendered := rd, enabled := true,
          gmOnly := go, currentIsGM := ig, currentUserId := cu } m
      refine ⟨sf2, l2, ?_⟩
      simp only [addMedia, hgo, Bool.not_true, Bool.false_eq_true, if_false]
      rw [he1, he2]
    · exact ⟨sf, li, by simp [addMedia, hgo]⟩

/-- After a mirror sync for a record, the mirror holds exactly that record
under its id. -/
theorem collectionSyncAdd_filter_eq (coll : List Media) (m : Media) :
    (collectionSyncAdd coll m).filter (fun x => x.id = m.id) = [m] := by
  unfold collectionSyncAdd
  by_cases h : coll.any (fun x => x.id = m.id)
  · have hf : (coll.filter (fun x => !(x.id = m.id))).any (fun x => x.id = m.id) = false := by
      rw [List.any_eq_false]
      intro x hx
      simp only [List.mem_filter] at hx
      simpa using hx.2
    have hnil : (coll.filter (fun x => !(x.id = m.id))).filter (fun x => x.id = m.id) = [] := by
      rw [List.filter_eq_nil_iff]
      intro x hx
      simp only [List.mem_filter] at hx
      simpa using hx.2
    simp [h, hf, List.filter_append, hnil]
  · have hnil : coll.filter (fun x => x.id = m.id) = [] := by
      rw [List.filter_eq_nil_iff]
      intro x hx hcontra
      exact h (List.any_eq_true.mpr ⟨x, hx, hcontra⟩)
    simp [h, List.filter_append, hnil]

/-- One executed `_addMedia` leaves exactly one surface element for the id,
provided the surface held at most one before. -/
theorem addMedia_surface_one (s : RenderState) (m : Media)
    (hr : s.rendered = true) (hen : s.enabled = true)
    (hgm : (s.gmOnly && !s.currentIsGM) = false)
    (hc : s.surface.count m.id ≤ 1) :
    (addMedia s m).surface.count m.id = 1 := by
  unfold addMedia
  simp only [hen, Bool.not_true, Bool.false_eq_true, if_false, hgm]
  rcases hsr : surfaceRemoveFirst s.surface m.id with _ | p
  · have h0 := surfaceRemoveFirst_none_count s.surface m.id hsr
    simp [doRemoveMedia, doAddMedia, hr, hsr, List.count_append, h0]
  · have h1 := surfaceRemoveFirst_some_count s.surface m.id p.1 p.2
      (by rw [hsr])
    have h0 : p.1.count m.id = 0 := by omega
    simp [doRemoveMedia, doAddMedia, hr, hsr, List.count_append, h0]

/-! ## C8 -/

/-- C8: applying `_addMedia` twice in a row for the same record id is
idempotent — afterwards the mirror holds exactly one entry for the id (the
later record) and the presentation surface holds exactly one element for the
id, because an add for a present id removes the existing element first. -/
theorem c8_add_media_twice_idempotent :
    ∀ (s : RenderState) (m1 m2 : Media),
    m1.id = m2.id →
    s.rendered = true → s.enabled = true → (s.gmOnly && !s.currentIsGM) = false →
    s.surface.count m2.id ≤ 1 →
    ((addMedia (addMedia s m1) m2).collection.filter (fun x => x.id = m2.id) = [m2] ∧
     (addMedia (addMedia s m1) m2).surface.count m2.id = 1) := by
  intro s m1 m2 hid hr hen hgm hc
  obtain ⟨sf1, l1, he1⟩ := addMedia_eta s m1
  have hcount1 : (addMedia s m1).surface.count m2.id = 1 := by
    rw [← hid] at hc ⊢
    exact addMedia_surface_one s m1 hr hen hgm hc
  constructor
  · obtain ⟨sf2, l2, he2⟩ := addMedia_eta (addMedia s m1) m2
    rw [he2]
    exact collectionSyncAdd_filter_eq (addMedia s m1).collection m2
  · have hr1 : (addMedia s m1).rendered = true := by rw [he1]; exact hr
    have hen1 : (addMedia s m1).enabled = true := by rw [he1]; exact hen
    have hgm1 : ((addMedia s m1).gmOnly && !(addMedia s m1).currentIsGM) = false := by
      rw [he1]; exact hgm
    have := addMedia_surface_one (addMedia s m1) m2 hr1 hen1 hgm1 (by omega)
    exact this

/-- C8 witness: adding the concrete record twice to the fixture state leaves
one mirror entry and one surface element. -/
theorem c8_add_media_twice_idempotent_witness :
    mediaFixture.id = mediaFixture.id ∧
    (addMedia (addMedia baseRender mediaFixture) mediaFixture).collection.filter
      (fun x => x.id = mediaFixture.id) = [mediaFixture] ∧
    (addMedia (addMedia baseRender mediaFixture) mediaFixture).surface.count
      mediaFixture.id = 1 := by
  have h := c8_add_media_twice_idempotent baseRender mediaFixture mediaFixture rfl rfl rfl
    (by decide) (by decide)
  exact ⟨rfl, h.1, h.2⟩

/-! ## C9 -/

/-- C9: while the `#renderingBatch` guard is set, every `_renderBatch` call
is a no-op that enqueues nothing; hence one request enqueues exactly one
batch operation and any number of further requests arriving while it is in
flight leave the state unchanged. -/
theorem c9_backfill_requests_coalesce :
    ∀ (s : RenderState) (size : Nat) (sizes : List Nat),
    s.renderingBatch = false → s.enabled = true → (s.gmOnly && !s.currentIsGM) = false →
    ((renderBatch s size).pendingBatchSizes = s.pendingBatchSizes ++ [size] ∧
     (renderBatch s size).renderingBatch = true ∧
     (∀ (t : RenderState) (sz : Nat), t.renderingBatch = true → renderBatch t sz = t) ∧
     sizes.foldl renderBatch (renderBatch s size) = renderBatch s size) := by
  intro s size sizes hrb hen hgm
  have hnoop : ∀ (t : RenderState) (sz : Nat), t.renderingBatch = true → renderBatch t sz = t := by
    intro t sz ht
    simp [renderBatch, ht]
  have h1 : renderBatch s size =
      { s with renderingBatch := true
               pendingBatchSizes := s.pendingBatchSizes ++ [size] } := by
    simp [renderBatch, hrb, hen, hgm]
  have hfix : ∀ (l : List Nat) (t : RenderState), t.renderingBatch = true →
      l.foldl renderBatch t = t := by
    intro l
    induction l with
    | nil => intro t _; rfl
    | cons x xs ih =>
      intro t ht
      rw [List.foldl_cons, hnoop t x ht]
      exact ih t ht
  refine ⟨by rw [h1], by rw [h1], hnoop, hfix sizes _ (by rw [h1])⟩

/-- C9 witness: three further requests issued while the first one is in
flight change nothing. -/
theorem c9_backfill_requests_coalesce_witness :
    baseRender.renderingBatch = false ∧
    (renderBatch baseRender 10).pendingBatchSizes = [10] ∧
    [10, 10, 10].foldl renderBatch (renderBatch baseRender 10) = renderBatch baseRender 10 := by
  have h := c9_backfill_requests_coalesce baseRender 10 [10, 10, 10] rfl rfl (by decide)
  exact ⟨rfl, h.1, h.2.2.2⟩

/-! ## C10 -/

/-- C10: a batch backfill on a non-GM client only materializes records whose
`targetUsers` contain the current user (everything newly prepended to the
surface comes from such records), while on a GM client the pagination source
is the whole mirror. -/
theorem c10_backfill_respects_addressing :
    ∀ (s : RenderState) (size : Nat),
    s.rendered = true →
    ((s.currentIsGM = true → batchSourceList s = s.collection) ∧
     (s.currentIsGM = false →
        ∃ batch : List Media,
          (doRenderBatch s size).surface = batch.map (fun m => m.id) ++ s.surface ∧
          ∀ m ∈ batch, m ∈ s.collection ∧ m.targetUsers.contains s.currentUserId = true)) := by
  intro s size hr
  constructor
  · intro hgm
    simp [batchSourceList, hgm]
  · intro hgm
    unfold doRenderBatch
    simp only [hr, Bool.not_true, Bool.false_eq_true, if_false]
    split
    · exact ⟨[], by simp, by simp⟩
    · refine ⟨_, rfl, ?_⟩
      intro m hm
      have hm1 : m ∈ batchSourceList s :=
        List.mem_of_mem_take (List.mem_of_mem_drop hm)
      rw [batchSourceList] at hm1
      simp only [hgm, Bool.false_eq_true, if_false, List.mem_filter] at hm1
      exact hm1

/-- C10 witness: on player A's fixture state, a backfill of two prepends only
the record addressed to A. -/
theorem c10_backfill_respects_addressing_witness :
    baseRender.rendered = true ∧
    (baseRender.currentIsGM = false →
       ∃ batch : List Media,
         (doRenderBatch baseRender 2).surface = batch.map (fun m => m.id) ++ baseRender.surface ∧
         ∀ m ∈ batch, m ∈ baseRender.collection ∧
           m.targetUsers.contains baseRender.currentUserId = true) :=
  ⟨rfl, (c10_backfill_respects_addressing baseRender 2 rfl).2⟩

/-! ## Pipeline shape helper lemmas -/

/-- A request the validator accepts has a truthy source and one of the six
registered `(mode, optionName, optionValue)` triples of the catalog. -/
theorem validateOptions_ok_shape (o : Ctx) (h : validateOptions o = Except.ok ()) :
    truthy o.src = true ∧
    (((o.mode = some modePopout ∨ o.mode = some modeFullscreen) ∧
        o.optionName = some "users" ∧
        (o.optionValue = some "all" ∨ o.optionValue = some "selection")) ∨
      (o.mode = some modeScene ∧ o.optionName = some "display" ∧
        (o.optionValue = some "fit" ∨ o.optionValue = some "fill"))) := by
  unfold validateOptions at h
  split at h
  · simp at h
  · split at h
    · simp at h
    · split at h
      · rename_i h1 h2 h3
        simp only [Bool.not_eq_false', Bool.not_eq_true, Bool.not_eq_false] at h1 h2
        refine ⟨h1, ?_⟩
        rw [Bool.and_eq_true] at h2
        obtain ⟨hmt, hmc⟩ := h2
        rcases hmode : o.mode with _ | s
        · rw [hmode] at hmt
          simp [truthy] at hmt
        · rw [hmode] at hmc h3
          simp only [Option.getD_some] at hmc h3
          simp only [actionModes, MEDIA_ACTIONS, modePopout, modeFullscreen, modeScene,
            List.map_cons, List.map_nil, List.contains_cons, List.contains_nil,
            Bool.or_false, Bool.or_eq_true, beq_iff_eq] at hmc
          rcases hmc with hs | hs | hs <;> subst hs <;>
            simp [MEDIA_ACTIONS, modePopout, modeFullscreen, modeScene] at h3 <;>
            simp [modePopout, modeFullscreen, modeScene, hmode] <;> tauto
      · simp at h

/-! ## C7 -/

/-- C7: placement resolution in scene mode auto-selects the sole available
area without consulting the picker, blocks on the picker when several exist
(a null resolution aborts, a picked area is adopted), aborts when no area
exists (the picker can then only resolve null), and a cancelled pick aborts
the whole dispatch with no side effects. -/
theorem c7_area_selection_resolution :
    ∀ (env : Env) (ctx : Ctx),
    env.hasCanvas = true →
    (env.areaSelectorResult = none ∨
      ∃ a, env.areaSelectorResult = some a ∧ a ∈ env.availableAreas) →
    ((∀ a0, env.availableAreas = [a0] →
        ∀ r, runStep { env with areaSelectorResult := r } "area-selection" ctx =
          (some { ctx with targetArea := some a0 }, [])) ∧
     (1 < env.availableAreas.length →
        (env.areaSelectorResult = none →
           runStep env "area-selection" ctx = (none, [])) ∧
        (∀ a, env.areaSelectorResult = some a →
           runStep env "area-selection" ctx = (some { ctx with targetArea := some a }, []))) ∧
     (env.availableAreas = [] → runStep env "area-selection" ctx = (none, [])) ∧
     (∀ o : Ctx, validateOptions o = Except.ok () → o.mode = some modeScene →
        env.currentIsGM = true → env.areaSelectorResult = none →
        env.availableAreas.length ≠ 1 →
        dispatchFull env o = (Except.ok none, []))) := by
  intro env ctx hc hsel
  refine ⟨?_, ?_, ?_, ?_⟩
  · intro a0 ha0 r
    simp [runStep, hc, ha0]
  · intro hlen
    have hne : ¬ env.availableAreas.length = 1 := by omega
    constructor
    · intro hnone
      simp [runStep, hc, hne, hnone]
    · intro a ha
      simp [runStep, hc, hne, ha]
  · intro hempty
    rcases hsel with hnone | ⟨a, _, hmem⟩
    · simp [runStep, hc, hempty, hnone]
    · rw [hempty] at hmem
      simp at hmem
  · intro o hval hmode hgm hnone hlen
    have hshape := validateOptions_ok_shape o hval
    have hname : o.optionName = some "display" := by
      rcases hshape.2 with ⟨hm | hm, _, _⟩ | ⟨_, hn, _⟩
      · rw [hmode] at hm
        simp [modeScene, modePopout] at hm
      · rw [hmode] at hm
        simp [modeScene, modeFullscreen] at hm
      · exact hn
    have hpipe : createExecutionPipeline o =
        ["is-gm", "all-users", "area-selection", "create-area-flag", "store-media"] := by
      simp [createExecutionPipeline, PIPELINE_STEPS, stepCondition, hmode, hname, modeScene]
    have hd : dispatchFull env o =
        (Except.ok (executePipeline env (createExecutionPipeline o) o).1,
         (executePipeline env (createExecutionPipeline o) o).2) := by
      simp [dispatchFull, hval]
    rw [hd, hpipe]
    simp [executePipeline, runStep, hgm, hc, hnone, hlen]

/-- C7 witness: with two available areas and a cancelled picker, the concrete
scene dispatch aborts with no effects. -/
theorem c7_area_selection_resolution_witness :
    baseEnv.hasCanvas = true ∧
    dispatchFull { baseEnv with areaSelectorResult := none } sceneFitRequest =
      (Except.ok none, []) := by
  have h := (c7_area_selection_resolution { baseEnv with areaSelectorResult := none }
    { src := some "a.png" } rfl (Or.inl rfl)).2.2.2 sceneFitRequest (by rfl) rfl rfl rfl
    (by decide)
  exact ⟨rfl, h⟩

/-- The filtered pipeline always ends with the history-recording step, since
its condition is constantly true and it closes the registry. -/
theorem createExecutionPipeline_getLast (o : Ctx) :
    (createExecutionPipeline o).getLast? = some "store-media" := by
  unfold createExecutionPipeline PIPELINE_STEPS
  rw [show (["is-gm", "all-users", "user-selection", "blacklist-filter", "area-selection",
      "has-darkness", "create-area-flag", "create-layer", "store-media"] : List String) =
      ["is-gm", "all-users", "user-selection", "blacklist-filter", "area-selection",
       "has-darkness", "create-area-flag", "create-layer"] ++ ["store-media"] from rfl]
  rw [List.filter_append]
  have hsm : List.filter (fun n => stepCondition n o) ["store-media"] = ["store-media"] := by
    simp [stepCondition]
  rw [hsm]
  exact List.getLast?_concat _

/-- The five pipeline shapes a validated request can produce, with the facts
about the request that select each. -/
theorem pipeline_shapes (o : Ctx) (h : validateOptions o = Except.ok ()) :
    ((o.optionName = some "users" ∧ o.optionValue = some "all" ∧
        ¬ o.mode = some modeScene) ∧
      ((o.darkness = false ∧ createExecutionPipeline o =
          ["is-gm", "all-users", "blacklist-filter", "create-layer", "store-media"]) ∨
       (o.darkness = true ∧ createExecutionPipeline o =
          ["is-gm", "all-users", "blacklist-filter", "has-darkness", "create-layer",
           "store-media"]))) ∨
    ((o.optionName = some "users" ∧ o.optionValue = some "selection" ∧
        ¬ o.mode = some modeScene) ∧
      ((o.darkness = false ∧ createExecutionPipeline o =
          ["is-gm", "user-selection", "blacklist-filter", "create-layer", "store-media"]) ∨
       (o.darkness = true ∧ createExecutionPipeline o =
          ["is-gm", "user-selection", "blacklist-filter", "has-darkness", "create-layer",
           "store-media"]))) ∨
    (o.mode = some modeScene ∧ createExecutionPipeline o =
      ["is-gm", "all-users", "area-selection", "create-area-flag", "store-media"]) := by
  obtain ⟨-, hshape⟩ := validateOptions_ok_shape o h
  rcases hshape with ⟨hm, hn, hv⟩ | ⟨hm, hn, hv⟩
  · have hms : ¬ o.mode = some modeScene := by
      rcases hm with hm | hm <;> rw [hm] <;>
        simp [modePopout, modeFullscreen, modeScene]
    rcases hv with hv | hv
    · refine Or.inl ⟨⟨hn, hv, hms⟩, ?_⟩
      cases hb : o.darkness
      · exact Or.inl ⟨rfl, by
          rcases hm with hm | hm <;>
            simp [createExecutionPipeline, PIPELINE_STEPS, stepCondition, hm, hn, hv, hb,
              modePopout, modeFullscreen, modeScene]⟩
      · exact Or.inr ⟨rfl, by
          rcases hm with hm | hm <;>
            simp [createExecutionPipeline, PIPELINE_STEPS, stepCondition, hm, hn, hv, hb,
              modePopout, modeFullscreen, modeScene]⟩
    · refine Or.inr (Or.inl ⟨⟨hn, hv, hms⟩, ?_⟩)
      cases hb : o.darkness
      · exact Or.inl ⟨rfl, by
          rcases hm with hm | hm <;>
            simp [createExecutionPipeline, PIPELINE_STEPS, stepCondition, hm, hn, hv, hb,
              modePopout, modeFullscreen, modeScene]⟩
      · exact Or.inr ⟨rfl, by
          rcases hm with hm | hm <;>
            simp [createExecutionPipeline, PIPELINE_STEPS, stepCondition, hm, hn, hv, hb,
              modePopout, modeFullscreen, modeScene]⟩
  · refine Or.inr (Or.inr ⟨hm, ?_⟩)
    simp [createExecutionPipeline, PIPELINE_STEPS, stepCondition, hm, hn, modeScene]

/-- A trace of renderLayer queries followed by one history write is ordered. -/
theorem traceOrdered_layers_store (us : List String) (d : Ctx) (s : Option String)
    (t : Option (List String)) (st : Ctx) :
    TraceOrdered (us.map (fun u => Effect.renderLayer u d) ++ [Effect.storeMediaCall s t st]) := by
  refine ⟨[], us.map (fun u => Effect.renderLayer u d), [Effect.storeMediaCall s t st],
    by simp, by simp, ?_, by simp [isStoreEffect], by simp⟩
  rw [List.all_eq_true]
  intro e he
  obtain ⟨u, -, rfl⟩ := List.mem_map.mp he
  rfl

/-- A trace of renderLayer queries alone is ordered. -/
theorem traceOrdered_layers (us : List String) (d : Ctx) :
    TraceOrdered (us.map (fun u => Effect.renderLayer u d)) := by
  refine ⟨[], us.map (fun u => Effect.renderLayer u d), [], by simp, by simp, ?_, by simp,
    by simp⟩
  rw [List.all_eq_true]
  intro e he
  obtain ⟨u, -, rfl⟩ := List.mem_map.mp he
  rfl

/-- A placement write followed by one history write is ordered. -/
theorem traceOrdered_flag_store (a : Option String) (d : Ctx) (s : Option String)
    (t : Option (List String)) (st : Ctx) :
    TraceOrdered [Effect.createAreaFlag a d, Effect.storeMediaCall s t st] := by
  exact ⟨[Effect.createAreaFlag a d], [], [Effect.storeMediaCall s t st],
    by simp, by simp [isAreaFlagEffect], by simp, by simp [isStoreEffect], by simp⟩

/-- A placement write alone is ordered. -/
theorem traceOrdered_flag (a : Option String) (d : Ctx) :
    TraceOrdered [Effect.createAreaFlag a d] := by
  exact ⟨[Effect.createAreaFlag a d], [], [], by simp, by simp [isAreaFlagEffect], by simp,
    by simp, by simp⟩

/-- Shape-A execution (all-users, no darkness): on completion the resolved
target set is the active users minus the blacklist. -/
theorem exec_allusers_targetUsers (env : Env) (o ctx : Ctx) (fx : List Effect)
    (h : executePipeline env ["is-gm", "all-users", "blacklist-filter", "create-layer",
        "store-media"] o = (some ctx, fx)) :
    ctx.targetUsers =
      some ((activeUserIds env).filter (fun u => !(env.blacklist.contains u))) := by
  by_cases hgm : env.currentIsGM
  · by_cases he : activeUserIds env = []
    · simp [executePipeline, runStep, hgm, he] at h
    · by_cases ha : ∀ a ∈ activeUserIds env, a ∈ env.blacklist
      · simp [executePipeline, runStep, hgm, he] at h
        rw [if_pos ha] at h
        simp at h
      · by_cases hsm : o.mode.getD "" ∈ env.sidebarLayers
        · simp [executePipeline, runStep, hgm, he, ha, hsm] at h
          obtain ⟨hctx, -⟩ := h
          rw [← hctx]
          simp
        · simp [executePipeline, runStep, hgm, he, ha, hsm] at h
          obtain ⟨hctx, -⟩ := h
          rw [← hctx]
          simp
  · simp [executePipeline, runStep, hgm] at h

/-- Shape-B execution (all-users, darkness): on completion the resolved
target set is the active users minus the blacklist. -/
theorem exec_allusers_dark_targetUsers (env : Env) (o ctx : Ctx) (fx : List Effect)
    (h : executePipeline env ["is-gm", "all-users", "blacklist-filter", "has-darkness",
        "create-layer", "store-media"] o = (some ctx, fx)) :
    ctx.targetUsers =
      some ((activeUserIds env).filter (fun u => !(env.blacklist.contains u))) := by
  by_cases hgm : env.currentIsGM
  · by_cases he : activeUserIds env = []
    · by_cases hc : env.hasCanvas
      · simp [executePipeline, runStep, hgm, he, hc] at h
      · simp [executePipeline, runStep, hgm, he, hc] at h
    · by_cases ha : ∀ a ∈ activeUserIds env, a ∈ env.blacklist
      · simp [executePipeline, runStep, hgm, he] at h
        rw [if_pos ha] at h
        simp at h
      · by_cases hc : env.hasCanvas
        · by_cases hsm : o.mode.getD "" ∈ env.sidebarLayers
          · simp [executePipeline, runStep, hgm, he, ha, hc, hsm] at h
            obtain ⟨hctx, -⟩ := h
            rw [← hctx]
            simp
          · simp [executePipeline, runStep, hgm, he, ha, hc, hsm] at h
            obtain ⟨hctx, -⟩ := h
            rw [← hctx]
            simp
        · simp [executePipeline, runStep, hgm, he, ha, hc] at h
  · simp [executePipeline, runStep, hgm] at h

/-- Shape-A execution: when blacklist filtering leaves no allowed user, the
pipeline aborts and at most a warning is emitted (no peer query, no history
write). -/
theorem exec_allusers_abort (env : Env) (o : Ctx)
    (hall : (activeUserIds env).filter (fun u => !(env.blacklist.contains u)) = []) :
    (executePipeline env ["is-gm", "all-users", "blacklist-filter", "create-layer",
        "store-media"] o).1 = none ∧
    ∀ e ∈ (executePipeline env ["is-gm", "all-users", "blacklist-filter", "create-layer",
        "store-media"] o).2, ∃ msg, e = Effect.warn msg := by
  by_cases hgm : env.currentIsGM
  · by_cases he : activeUserIds env = []
    · constructor
      · simp [executePipeline, runStep, hgm, he]
      · simp [executePipeline, runStep, hgm, he]
    · have ha : ∀ a ∈ activeUserIds env, a ∈ env.blacklist := by simpa using hall
      have hv : executePipeline env ["is-gm", "all-users", "blacklist-filter", "create-layer",
          "store-media"] o = (none, []) := by
        simp [executePipeline, runStep, hgm, he]
        rw [if_pos ha]
      rw [hv]
      exact ⟨rfl, by simp⟩
  · constructor
    · simp [executePipeline, runStep, hgm]
    · simp [executePipeline, runStep, hgm]

/-- Shape-B execution: when blacklist filtering leaves no allowed user, the
pipeline aborts and at most a warning is emitted. -/
theorem exec_allusers_dark_abort (env : Env) (o : Ctx)
    (hall : (activeUserIds env).filter (fun u => !(env.blacklist.contains u)) = []) :
    (executePipeline env ["is-gm", "all-users", "blacklist-filter", "has-darkness",
        "create-layer", "store-media"] o).1 = none ∧
    ∀ e ∈ (executePipeline env ["is-gm", "all-users", "blacklist-filter", "has-darkness",
        "create-layer", "store-media"] o).2, ∃ msg, e = Effect.warn msg := by
  by_cases hgm : env.currentIsGM
  · by_cases he : activeUserIds env = []
    · by_cases hc : env.hasCanvas
      · constructor
        · simp [executePipeline, runStep, hgm, he, hc]
        · simp [executePipeline, runStep, hgm, he, hc]
      · constructor
        · simp [executePipeline, runStep, hgm, he, hc]
        · simp [executePipeline, runStep, hgm, he, hc]
    · have ha : ∀ a ∈ activeUserIds env, a ∈ env.blacklist := by simpa using hall
      have hv : executePipeline env ["is-gm", "all-users", "blacklist-filter", "has-darkness",
          "create-layer", "store-media"] o = (none, []) := by
        simp [executePipeline, runStep, hgm, he]
        rw [if_pos ha]
      rw [hv]
      exact ⟨rfl, by simp⟩
  · constructor
    · simp [executePipeline, runStep, hgm]
    · simp [executePipeline, runStep, hgm]

/-! ## C6 -/

/-- C6: under the all-connected-peers strategy in a peer-limited (non-scene)
mode, every completed dispatch resolves the target set to the active users
minus the blacklist; when the blacklist leaves that set empty the pipeline
aborts with no peer query and no history write (at most a warning
notification); and the scene mode's pipeline never contains the
blacklist-filter step. -/
theorem c6_all_users_strategy_blacklist :
    ∀ (env : Env) (o : Ctx),
    o.optionName = some "users" → o.optionValue = some "all" →
    ((∀ ctx fx, dispatchFull env o = (Except.ok (some ctx), fx) →
        ¬ o.mode = some modeScene →
        ctx.targetUsers =
          some ((activeUserIds env).filter (fun u => !(env.blacklist.contains u)))) ∧
     (validateOptions o = Except.ok () → ¬ o.mode = some modeScene →
      (activeUserIds env).filter (fun u => !(env.blacklist.contains u)) = [] →
        (dispatchFull env o).1 = Except.ok none ∧
        ∀ e ∈ (dispatchFull env o).2, ∃ msg, e = Effect.warn msg) ∧
     (∀ o2 : Ctx, o2.mode = some modeScene →
        ¬ ("blacklist-filter" ∈ createExecutionPipeline o2))) := by
  intro env o hn hv
  refine ⟨?_, ?_, ?_⟩
  · intro ctx fx h hms
    unfold dispatchFull at h
    rcases hval : validateOptions o with e | u
    · rw [hval] at h
      simp at h
    · cases u
      rw [hval] at h
      have h' : ((Except.ok (executePipeline env (createExecutionPipeline o) o).1 :
            Except String (Option Ctx)),
          (executePipeline env (createExecutionPipeline o) o).2) =
          (Except.ok (some ctx), fx) := h
      rw [Prod.mk.injEq] at h'
      obtain ⟨h1, h2⟩ := h'
      rw [Except.ok.injEq] at h1
      rcases pipeline_shapes o hval with ⟨-, hsh⟩ | ⟨⟨-, hv2, -⟩, -⟩ | ⟨hm, -⟩
      · rcases hsh with ⟨-, hpipe⟩ | ⟨-, hpipe⟩
        · rw [hpipe] at h1 h2
          have hfull : executePipeline env ["is-gm", "all-users", "blacklist-filter",
              "create-layer", "store-media"] o = (some ctx, fx) := by
            rw [Prod.ext_iff]
            exact ⟨h1, h2⟩
          exact exec_allusers_targetUsers env o ctx fx hfull
        · rw [hpipe] at h1 h2
          have hfull : executePipeline env ["is-gm", "all-users", "blacklist-filter",
              "has-darkness", "create-layer", "store-media"] o = (some ctx, fx) := by
            rw [Prod.ext_iff]
            exact ⟨h1, h2⟩
          exact exec_allusers_dark_targetUsers env o ctx fx hfull
      · rw [hv] at hv2
        simp at hv2
      · exact absurd hm hms
  · intro hval hms hall
    have hd : dispatchFull env o =
        (Except.ok (executePipeline env (createExecutionPipeline o) o).1,
         (executePipeline env (createExecutionPipeline o) o).2) := by
      simp [dispatchFull, hval]
    rcases pipeline_shapes o hval with ⟨-, hsh⟩ | ⟨⟨-, hv2, -⟩, -⟩ | ⟨hm, -⟩
    · rcases hsh with ⟨-, hpipe⟩ | ⟨-, hpipe⟩
      · rw [hd, hpipe]
        obtain ⟨hab1, hab2⟩ := exec_allusers_abort env o hall
        exact ⟨by rw [hab1], hab2⟩
      · rw [hd, hpipe]
        obtain ⟨hab1, hab2⟩ := exec_allusers_dark_abort env o hall
        exact ⟨by rw [hab1], hab2⟩
    · rw [hv] at hv2
      simp at hv2
    · exact absurd hm hms
  · intro o2 hm2 hmem
    rw [createExecutionPipeline, List.mem_filter] at hmem
    obtain ⟨-, hcond⟩ := hmem
    simp [stepCondition, hm2, modeScene] at hcond

/-- C6 witness: the concrete popout-to-all dispatch with player B blacklisted
completes with target set G and A. -/
theorem c6_all_users_strategy_blacklist_witness :
    popoutAllRequest.optionName = some "users" ∧
    (∀ ctx fx,
       dispatchFull { baseEnv with blacklist := ["B"] } popoutAllRequest =
         (Except.ok (some ctx), fx) →
       ¬ popoutAllRequest.mode = some modeScene →
       ctx.targetUsers = some ["G", "A"]) := by
  refine ⟨rfl, ?_⟩
  intro ctx fx h hms
  have := (c6_all_users_strategy_blacklist { baseEnv with blacklist := ["B"] }
    popoutAllRequest rfl rfl).1 ctx fx h hms
  rw [this]
  rfl

/-- Shape-A execution (all-users, no darkness): a completed run's trace is
ordered. -/
theorem exec_allusers_trace (env : Env) (o ctx : Ctx) (fx : List Effect)
    (h : executePipeline env ["is-gm", "all-users", "blacklist-filter", "create-layer",
        "store-media"] o = (some ctx, fx)) : TraceOrdered fx := by
  by_cases hgm : env.currentIsGM
  · by_cases he : activeUserIds env = []
    · simp [executePipeline, runStep, hgm, he] at h
    · by_cases ha : ∀ a ∈ activeUserIds env, a ∈ env.blacklist
      · simp [executePipeline, runStep, hgm, he] at h
        rw [if_pos ha] at h
        simp at h
      · by_cases hsm : o.mode.getD "" ∈ env.sidebarLayers
        · simp [executePipeline, runStep, hgm, he, ha, hsm] at h
          obtain ⟨-, hfx⟩ := h
          rw [← hfx]
          exact traceOrdered_layers_store _ _ _ _ _
        · simp [executePipeline, runStep, hgm, he, ha, hsm] at h
          obtain ⟨-, hfx⟩ := h
          rw [← hfx]
          exact traceOrdered_layers _ _
  · simp [executePipeline, runStep, hgm] at h

/-- Shape-B execution (all-users, darkness): a completed run's trace is
ordered. -/
theorem exec_allusers_dark_trace (env : Env) (o ctx : Ctx) (fx : List Effect)
    (h : executePipeline env ["is-gm", "all-users", "blacklist-filter", "has-darkness",
        "create-layer", "store-media"] o = (some ctx, fx)) : TraceOrdered fx := by
  by_cases hgm : env.currentIsGM
  · by_cases he : activeUserIds env = []
    · by_cases hc : env.hasCanvas
      · simp [executePipeline, runStep, hgm, he, hc] at h
      · simp [executePipeline, runStep, hgm, he, hc] at h
    · by_cases ha : ∀ a ∈ activeUserIds env, a ∈ env.blacklist
      · simp [executePipeline, runStep, hgm, he] at h
        rw [if_pos ha] at h
        simp at h
      · by_cases hc : env.hasCanvas
        · by_cases hsm : o.mode.getD "" ∈ env.sidebarLayers
          · simp [executePipeline, runStep, hgm, he, ha, hc, hsm] at h
            obtain ⟨-, hfx⟩ := h
            rw [← hfx]
            exact traceOrdered_layers_store _ _ _ _ _
          · simp [executePipeline, runStep, hgm, he, ha, hc, hsm] at h
            obtain ⟨-, hfx⟩ := h
            rw [← hfx]
            exact traceOrdered_layers _ _
        · simp [executePipeline, runStep, hgm, he, ha, hc] at h
  · simp [executePipeline, runStep, hgm] at h

/-- Shape-C execution (explicit selection, no darkness): a completed run's
trace is ordered. -/
theorem exec_selection_trace (env : Env) (o ctx : Ctx) (fx : List Effect)
    (h : executePipeline env ["is-gm", "user-selection", "blacklist-filter", "create-layer",
        "store-media"] o = (some ctx, fx)) : TraceOrdered fx := by
  by_cases hgm : env.currentIsGM
  · rcases hus : env.userSelectorResult with _ | us
    · simp [executePipeline, runStep, hgm, hus] at h
    · by_cases hue : us = []
      · simp [executePipeline, runStep, hgm, hus, hue] at h
      · by_cases ha : ∀ a ∈ us, a ∈ env.blacklist
        · simp [executePipeline, runStep, hgm, hus, hue] at h
          rw [if_pos ha] at h
          simp at h
        · by_cases hsm : o.mode.getD "" ∈ env.sidebarLayers
          · simp [executePipeline, runStep, hgm, hus, hue, ha, hsm] at h
            obtain ⟨-, hfx⟩ := h
            rw [← hfx]
            exact traceOrdered_layers_store _ _ _ _ _
          · simp [executePipeline, runStep, hgm, hus, hue, ha, hsm] at h
            obtain ⟨-, hfx⟩ := h
            rw [← hfx]
            exact traceOrdered_layers _ _
  · simp [executePipeline, runStep, hgm] at h

/-- Shape-D execution (explicit selection, darkness): a completed run's trace
is ordered. -/
theorem exec_selection_dark_trace (env : Env) (o ctx : Ctx) (fx : List Effect)
    (h : executePipeline env ["is-gm", "user-selection", "blacklist-filter", "has-darkness",
        "create-layer", "store-media"] o = (some ctx, fx)) : TraceOrdered fx := by
  by_cases hgm : env.currentIsGM
  · rcases hus : env.userSelectorResult with _ | us
    · simp [executePipeline, runStep, hgm, hus] at h
    · by_cases hue : us = []
      · by_cases hc : env.hasCanvas
        · simp [executePipeline, runStep, hgm, hus, hue, hc] at h
        · simp [executePipeline, runStep, hgm, hus, hue, hc] at h
      · by_cases ha : ∀ a ∈ us, a ∈ env.blacklist
        · simp [executePipeline, runStep, hgm, hus, hue] at h
          rw [if_pos ha] at h
          simp at h
        · by_cases hc : env.hasCanvas
          · by_cases hsm : o.mode.getD "" ∈ env.sidebarLayers
            · simp [executePipeline, runStep, hgm, hus, hue, ha, hc, hsm] at h
              obtain ⟨-, hfx⟩ := h
              rw [← hfx]
              exact traceOrdered_layers_store _ _ _ _ _
            · simp [executePipeline, runStep, hgm, hus, hue, ha, hc, hsm] at h
              obtain ⟨-, hfx⟩ := h
              rw [← hfx]
              exact traceOrdered_layers _ _
          · simp [executePipeline, runStep, hgm, hus, hue, ha, hc] at h
  · simp [executePipeline, runStep, hgm] at h

/-- Shape-E execution (scene mode): a completed run's trace is ordered — the
placement write precedes the history write and no peer query occurs. -/
theorem exec_scene_trace (env : Env) (o ctx : Ctx) (fx : List Effect)
    (h : executePipeline env ["is-gm", "all-users", "area-selection", "create-area-flag",
        "store-media"] o = (some ctx, fx)) : TraceOrdered fx := by
  by_cases hgm : env.currentIsGM
  · by_cases hc : env.hasCanvas
    · by_cases hl : env.availableAreas.length = 1
      · by_cases hfl : env.createAreaFlagOk
        · by_cases hsm : o.mode.getD "" ∈ env.sidebarLayers
          · simp [executePipeline, runStep, hgm, hc, hl, hfl, hsm] at h
            obtain ⟨-, hfx⟩ := h
            rw [← hfx]
            exact traceOrdered_flag_store _ _ _ _ _
          · simp [executePipeline, runStep, hgm, hc, hl, hfl, hsm] at h
            obtain ⟨-, hfx⟩ := h
            rw [← hfx]
            exact traceOrdered_flag _ _
        · simp [executePipeline, runStep, hgm, hc, hl, hfl] at h
      · rcases hsel : env.areaSelectorResult with _ | a
        · simp [executePipeline, runStep, hgm, hc, hl, hsel] at h
        · by_cases hfl : env.createAreaFlagOk
          · by_cases hsm : o.mode.getD "" ∈ env.sidebarLayers
            · simp [executePipeline, runStep, hgm, hc, hl, hsel, hfl, hsm] at h
              obtain ⟨-, hfx⟩ := h
              rw [← hfx]
              exact traceOrdered_flag_store _ _ _ _ _
            · simp [executePipeline, runStep, hgm, hc, hl, hsel, hfl, hsm] at h
              obtain ⟨-, hfx⟩ := h
              rw [← hfx]
              exact traceOrdered_flag _ _
          · simp [executePipeline, runStep, hgm, hc, hl, hsel, hfl] at h
    · simp [executePipeline, runStep, hgm, hc] at h
  · simp [executePipeline, runStep, hgm] at h

/-! ## C3 -/

/-- C3: in every dispatch that runs to completion, the effect trace splits
into placement writes, then outbound renderLayer peer queries, then at most
one history write (the delegation to `MediaSidebar.storeMedia`), which is
therefore last; and the filtered pipeline always ends with the store-media
step. -/
theorem c3_effects_strictly_ordered :
    ∀ (env : Env) (o ctx : Ctx) (fx : List Effect),
    dispatchFull env o = (Except.ok (some ctx), fx) →
    (TraceOrdered fx ∧ (createExecutionPipeline o).getLast? = some "store-media") := by
  intro env o ctx fx h
  refine ⟨?_, createExecutionPipeline_getLast o⟩
  unfold dispatchFull at h
  rcases hval : validateOptions o with e | u
  · rw [hval] at h
    simp at h
  · cases u
    rw [hval] at h
    have h' : ((Except.ok (executePipeline env (createExecutionPipeline o) o).1 :
          Except String (Option Ctx)),
        (executePipeline env (createExecutionPipeline o) o).2) =
        (Except.ok (some ctx), fx) := h
    rw [Prod.mk.injEq] at h'
    obtain ⟨h1, h2⟩ := h'
    rw [Except.ok.injEq] at h1
    rcases pipeline_shapes o hval with ⟨-, hsh⟩ | ⟨-, hsh⟩ | ⟨-, hpipe⟩
    · rcases hsh with ⟨-, hpipe⟩ | ⟨-, hpipe⟩ <;> rw [hpipe] at h1 h2
      · exact exec_allusers_trace env o ctx fx (by rw [Prod.ext_iff]; exact ⟨h1, h2⟩)
      · exact exec_allusers_dark_trace env o ctx fx (by rw [Prod.ext_iff]; exact ⟨h1, h2⟩)
    · rcases hsh with ⟨-, hpipe⟩ | ⟨-, hpipe⟩ <;> rw [hpipe] at h1 h2
      · exact exec_selection_trace env o ctx fx (by rw [Prod.ext_iff]; exact ⟨h1, h2⟩)
      · exact exec_selection_dark_trace env o ctx fx (by rw [Prod.ext_iff]; exact ⟨h1, h2⟩)
    · rw [hpipe] at h1 h2
      exact exec_scene_trace env o ctx fx (by rw [Prod.ext_iff]; exact ⟨h1, h2⟩)

/-- C3 witness: the concrete completed popout-to-all dispatch produces the
three peer queries followed by the single history write, and its trace is
ordered. -/
theorem c3_effects_strictly_ordered_witness :
    dispatchFull baseEnv popoutAllRequest =
      (Except.ok (some { popoutAllRequest with targetUsers := some ["G", "A", "B"] }),
       [Effect.renderLayer "G" popoutAllRequest,
        Effect.renderLayer "A" popoutAllRequest,
        Effect.renderLayer "B" popoutAllRequest,
        Effect.storeMediaCall (some "a.png") (some ["G", "A", "B"])
          { popoutAllRequest with src := none }]) ∧
    TraceOrdered
      [Effect.renderLayer "G" popoutAllRequest,
       Effect.renderLayer "A" popoutAllRequest,
       Effect.renderLayer "B" popoutAllRequest,
       Effect.storeMediaCall (some "a.png") (some ["G", "A", "B"])
         { popoutAllRequest with src := none }] := by
  have hd : dispatchFull baseEnv popoutAllRequest =
      (Except.ok (some { popoutAllRequest with targetUsers := some ["G", "A", "B"] }),
       [Effect.renderLayer "G" popoutAllRequest,
        Effect.renderLayer "A" popoutAllRequest,
        Effect.renderLayer "B" popoutAllRequest,
        Effect.storeMediaCall (some "a.png") (some ["G", "A", "B"])
          { popoutAllRequest with src := none }]) := by rfl
  exact ⟨hd, (c3_effects_strictly_ordered baseEnv popoutAllRequest _ _ hd).1⟩
